import Mathlib

/-!
Shallow embedding of src/wrappers.c (tvheadend process-safety and
synchronization primitives layer).

External OS calls (open, socket, pipe, write, clock_nanosleep,
pthread_mutex_trylock, the monotonic clocks) are modelled as oracles:
either an explicit result parameter or a list of per-iteration outcomes
for the looping functions.  Machine integers are modelled as Int or Nat;
every function is translated from the C source.
-/

/- Errno and flag constants (Linux values, from system headers). -/

def EAGAIN : Nat := 11

def EWOULDBLOCK : Nat := 11

def EINTR : Nat := 4

def EBUSY : Nat := 16

def ETIMEDOUT : Nat := 110

def FD_CLOEXEC : Nat := 1

/-!
Descriptor guard: tvh_open / tvh_socket (wrappers.c lines 25-49).
The kernel descriptor table is modelled as a map from descriptor number to
its fd-flags word.  The oracle sysFd is the return value of the underlying
open/socket call: a fresh descriptor, or -1 on failure.  The code, under
the fork lock, applies F_SETFD with FD_CLOEXEC or-ed into the current
flags whenever the call succeeded.
-/

def FdFlags : Type := Int → Nat

/-- Model of fcntl(fd, F_SETFD, fcntl(fd, F_GETFD) | FD_CLOEXEC). -/
def applyCloexec (t : FdFlags) (fd : Int) : FdFlags :=
  fun x => if x = fd then t fd ||| FD_CLOEXEC else t x

/-- Embedding of tvh_open: oracle sysFd is the result of open(2). -/
def tvh_open (sysFd : Int) (t : FdFlags) : Int × FdFlags :=
  if sysFd ≠ -1 then (sysFd, applyCloexec t sysFd) else (sysFd, t)

/-- Embedding of tvh_socket: oracle sysFd is the result of socket(2). -/
def tvh_socket (sysFd : Int) (t : FdFlags) : Int × FdFlags :=
  if sysFd ≠ -1 then (sysFd, applyCloexec t sysFd) else (sysFd, t)

/-!
Pipe handle: tvh_pipe / tvh_pipe_close (wrappers.c lines 51-76).
-/

/-- Modelled from the spec: th_pipe_t is declared in tvheadend.h, which is
not under src/; the spec describes it as a pair of descriptors
with read end and write end, sentinel value -1 when invalid. -/
structure th_pipe_t where
  rd : Int
  wr : Int
deriving DecidableEq

/-- Embedding of tvh_pipe.  The oracle sysRes is the outcome of pipe(2):
some (r, w) with the two fresh nonnegative descriptors on success, none on
failure (return value -1).  On success the code stores both descriptors in
the handle; on failure the handle is not touched. -/
def tvh_pipe (sysRes : Option (Nat × Nat)) (p : th_pipe_t) : Int × th_pipe_t :=
  match sysRes with
  | some fds => (0, ⟨(fds.1 : Int), (fds.2 : Int)⟩)
  | none => (-1, p)

/-- Embedding of tvh_pipe_close: closes both ends and stores -1 in both. -/
def tvh_pipe_close (_p : th_pipe_t) : th_pipe_t := ⟨-1, -1⟩

/-- Pipe handle invariant from the spec: both ends valid or both sentinel. -/
def pipeInv (p : th_pipe_t) : Prop :=
  (0 ≤ p.rd ∧ 0 ≤ p.wr) ∨ (p.rd = -1 ∧ p.wr = -1)

instance (p : th_pipe_t) : Decidable (pipeInv p) := by
  unfold pipeInv; infer_instance

/-!
Monotonic condition variable initialization: tvh_cond_init
(wrappers.c lines 221-235).  The oracle setclockRes is the result of
pthread_condattr_setclock(CLOCK_MONOTONIC), condInitRes the result of
pthread_cond_init.  A nonzero setclockRes makes the code call abort().
-/

inductive CondInitResult where
  | aborted : CondInitResult
  | returned (r : Nat) : CondInitResult
deriving DecidableEq

/-- Embedding of tvh_cond_init. -/
def tvh_cond_init (setclockRes : Nat) (condInitRes : Nat) : CondInitResult :=
  if setclockRes ≠ 0 then CondInitResult.aborted
  else CondInitResult.returned condInitRes

/-!
Theorems for the descriptor guard, the pipe handle and the condition
variable initialization.
-/

/-- Claim C6: every successful guarded descriptor-creating call (tvh_open,
tvh_socket) returns with the close-on-exec flag set on the new descriptor;
on failure the OS result -1 is propagated unchanged and the flags table is
untouched. -/
theorem tvh_open_socket_cloexec (sysFd : Int) (t : FdFlags) :
    (sysFd ≠ -1 →
      (tvh_open sysFd t).1 = sysFd ∧
      Nat.testBit ((tvh_open sysFd t).2 sysFd) 0 = true ∧
      (tvh_socket sysFd t).1 = sysFd ∧
      Nat.testBit ((tvh_socket sysFd t).2 sysFd) 0 = true) ∧
    (sysFd = -1 →
      tvh_open sysFd t = (-1, t) ∧ tvh_socket sysFd t = (-1, t)) := by
  constructor
  · intro h
    simp [tvh_open, tvh_socket, if_pos h, applyCloexec, FD_CLOEXEC,
      Nat.testBit_lor]
  · intro h
    subst h
    simp [tvh_open, tvh_socket]

/-- Witness for C6 at a concrete successful descriptor and a concrete
failed call. -/
theorem tvh_open_socket_cloexec_witness :
    ((tvh_open 5 (fun _ => 0)).1 = 5 ∧
      Nat.testBit ((tvh_open 5 (fun _ => 0)).2 5) 0 = true ∧
      (tvh_socket 5 (fun _ => 0)).1 = 5 ∧
      Nat.testBit ((tvh_socket 5 (fun _ => 0)).2 5) 0 = true) ∧
    (tvh_open (-1) (fun _ => 0) = (-1, fun _ => 0) ∧
      tvh_socket (-1) (fun _ => 0) = (-1, fun _ => 0)) :=
  ⟨(tvh_open_socket_cloexec 5 (fun _ => 0)).1 (by decide),
   (tvh_open_socket_cloexec (-1) (fun _ => 0)).2 rfl⟩

/-- Claim C7: the pipe-handle invariant (both ends valid or both the
sentinel -1) is preserved by every pipe operation: successful creation
stores two valid descriptors, failed creation leaves the handle untouched,
and close sets both ends to -1. -/
theorem tvh_pipe_invariant (sysRes : Option (Nat × Nat)) (p : th_pipe_t) :
    (∀ fds, sysRes = some fds →
      tvh_pipe sysRes p = (0, ⟨(fds.1 : Int), (fds.2 : Int)⟩) ∧
      0 ≤ (tvh_pipe sysRes p).2.rd ∧ 0 ≤ (tvh_pipe sysRes p).2.wr) ∧
    (sysRes = none → tvh_pipe sysRes p = (-1, p)) ∧
    ((tvh_pipe_close p).rd = -1 ∧ (tvh_pipe_close p).wr = -1) ∧
    (pipeInv p → pipeInv (tvh_pipe sysRes p).2) ∧
    pipeInv (tvh_pipe_close p) := by
  refine ⟨?_, ?_, ⟨rfl, rfl⟩, ?_, Or.inr ⟨rfl, rfl⟩⟩
  · rintro fds rfl
    refine ⟨rfl, ?_, ?_⟩ <;> simp [tvh_pipe]
  · rintro rfl; rfl
  · intro hp
    cases sysRes with
    | none => exact hp
    | some fds =>
        exact Or.inl ⟨by simp [tvh_pipe], by simp [tvh_pipe]⟩

/-- Witness for C7: a concrete successful creation from the sentinel
state, and the close transition. -/
theorem tvh_pipe_invariant_witness :
    (tvh_pipe (some (3, 4)) ⟨-1, -1⟩ = (0, ⟨3, 4⟩) ∧
      0 ≤ (tvh_pipe (some (3, 4)) ⟨-1, -1⟩).2.rd ∧
      0 ≤ (tvh_pipe (some (3, 4)) ⟨-1, -1⟩).2.wr) ∧
    pipeInv (tvh_pipe_close ⟨3, 4⟩) :=
  ⟨(tvh_pipe_invariant (some (3, 4)) ⟨-1, -1⟩).1 (3, 4) rfl,
   (tvh_pipe_invariant (some (3, 4)) ⟨3, 4⟩).2.2.2.2⟩

/-- Claim C9: tvh_cond_init aborts the process whenever configuring the
monotonic clock on the condition attribute fails, and it never returns
(with any value) after a failed clock configuration. -/
theorem tvh_cond_init_aborts (setclockRes condInitRes : Nat) :
    (setclockRes ≠ 0 →
      tvh_cond_init setclockRes condInitRes = CondInitResult.aborted) ∧
    (∀ r, tvh_cond_init setclockRes condInitRes = CondInitResult.returned r →
      setclockRes = 0) := by
  constructor
  · intro h; simp [tvh_cond_init, h]
  · intro r h
    by_contra hne
    simp [tvh_cond_init, hne] at h

/-- Witness for C9 at a concrete failed clock configuration. -/
theorem tvh_cond_init_aborts_witness :
    tvh_cond_init 22 0 = CondInitResult.aborted :=
  (tvh_cond_init_aborts 22 0).1 (by decide)

/-!
Deadline-bounded write: tvh_write (wrappers.c lines 78-100).
The loop body is driven by an oracle list of per-iteration outcomes of the
write(2) call: ok c (wrote c bytes), again now (write failed with a
retryable errno and the subsequent mclk() read gave now), err (write
failed with a non-retryable errno).  limit is the deadline computed once
on entry (mclk() + sec2mono(25)); mclk and sec2mono are external
collaborators, so the deadline and the clock samples are oracle values.
The function returns the pair (C return value, final value of the len
variable); the C code returns `len ? 1 : 0` after the loop.  When the
oracle list runs out with bytes still pending the C loop would keep
iterating, which the embedding reports as none.
-/

inductive WStep where
  | ok (c : Nat) : WStep
  | again (now : Int) : WStep
  | err : WStep
deriving DecidableEq

/-- Embedding of tvh_write.  The oracle list comes first so that the
recursion is structural on it; len is the remaining byte count. -/
def tvh_write (limit : Int) : List WStep → Nat → Option (Nat × Nat)
  | _, 0 => some (0, 0)
  | [], _ + 1 => none
  | WStep.ok c :: rest, len + 1 => tvh_write limit rest (len + 1 - c)
  | WStep.again now :: rest, len + 1 =>
      if limit < now then some (1, len + 1) else tvh_write limit rest (len + 1)
  | WStep.err :: _, len + 1 => some (1, len + 1)

/-!
Timed mutex: tvh_mutex_timedlock (wrappers.c lines 200-215).
clock0 is the getfastmonoclock() sample taken on entry, usec the caller
timeout; the loop compares later clock samples against
finish = clock0 + usec.  The oracle list holds one pair per loop
iteration: the pthread_mutex_trylock return value and the clock sample
that the deadline check would read in that iteration (unused when the
trylock result is not EBUSY).  The embedding returns the retcode paired
with the list of sleep durations (in microseconds) performed between
attempts; none means the oracle list ran out while still polling.
-/

/-- Embedding of tvh_mutex_timedlock. -/
def tvh_mutex_timedlock (clock0 usec : Int) :
    List (Nat × Int) → Option (Nat × List Nat)
  | [] => none
  | (retcode, now) :: rest =>
      if retcode = EBUSY then
        if clock0 + usec ≤ now then some (ETIMEDOUT, [])
        else (tvh_mutex_timedlock clock0 usec rest).map
          (fun p => (p.1, 10000 :: p.2))
      else some (retcode, [])

/-!
Theorems for tvh_write and tvh_mutex_timedlock.
-/

/-- Counterexample to claim C1: after writing 1 of 3 bytes and then
hitting a non-retryable error, 2 bytes remain unwritten but tvh_write
returns 1, not the remaining count 2. -/
theorem tvh_write_ret_not_count :
    tvh_write 0 [WStep.ok 1, WStep.err] 3 = some (1, 2) ∧ (1 : Nat) ≠ 2 :=
  ⟨by decide, by decide⟩

/-- Claim C1 (amended): the value returned by tvh_write is 0 exactly when
all bytes were written, and otherwise the constant 1 — a failure
indicator, not the count of unwritten bytes. -/
theorem tvh_write_ret (limit : Int) (evs : List WStep) (len r rem : Nat)
    (h : tvh_write limit evs len = some (r, rem)) :
    (r = 0 ↔ rem = 0) ∧ r = (if rem = 0 then 0 else 1) := by
  induction evs generalizing len with
  | nil =>
      cases len with
      | zero =>
          simp only [tvh_write, Option.some.injEq, Prod.mk.injEq] at h
          rcases h with ⟨rfl, rfl⟩
          simp
      | succ n => simp [tvh_write] at h
  | cons e rest ih =>
      cases len with
      | zero =>
          simp only [tvh_write, Option.some.injEq, Prod.mk.injEq] at h
          rcases h with ⟨rfl, rfl⟩
          simp
      | succ n =>
          cases e with
          | ok c => exact ih _ h
          | again now =>
              by_cases hl : limit < now
              · simp only [tvh_write, if_pos hl, Option.some.injEq,
                  Prod.mk.injEq] at h
                rcases h with ⟨rfl, rfl⟩
                simp
              · simp only [tvh_write, if_neg hl] at h
                exact ih _ h
          | err =>
              simp only [tvh_write, Option.some.injEq, Prod.mk.injEq] at h
              rcases h with ⟨rfl, rfl⟩
              simp

/-- Witness for C1 (amended) at a run that writes everything in two
chunks. -/
theorem tvh_write_ret_witness :
    ((0 : Nat) = 0 ↔ (0 : Nat) = 0) ∧
      (0 : Nat) = (if (0 : Nat) = 0 then 0 else 1) :=
  tvh_write_ret 7 [WStep.ok 2, WStep.ok 1] 3 0 0 (by decide)

/-- Claim C5: tvh_mutex_timedlock acquires an uncontended mutex
immediately with no sleep; on contention before the deadline it sleeps a
fixed 10000-microsecond interval and retries; once the clock sample
reaches the absolute deadline clock0 + usec it returns ETIMEDOUT; and
every sleep it ever performs is exactly 10000 microseconds. -/
theorem tvh_mutex_timedlock_spec (clock0 usec now : Int)
    (rest : List (Nat × Int)) :
    (tvh_mutex_timedlock clock0 usec ((0, now) :: rest) = some (0, [])) ∧
    (clock0 + usec ≤ now →
      tvh_mutex_timedlock clock0 usec ((EBUSY, now) :: rest) =
        some (ETIMEDOUT, [])) ∧
    (now < clock0 + usec →
      tvh_mutex_timedlock clock0 usec ((EBUSY, now) :: rest) =
        (tvh_mutex_timedlock clock0 usec rest).map
          (fun p => (p.1, 10000 :: p.2))) ∧
    (∀ evs r ss, tvh_mutex_timedlock clock0 usec evs = some (r, ss) →
      ∀ s ∈ ss, s = 10000) := by
  refine ⟨?_, ?_, ?_, ?_⟩
  · simp [tvh_mutex_timedlock, EBUSY]
  · intro h; simp [tvh_mutex_timedlock, h]
  · intro h; simp [tvh_mutex_timedlock, not_le.mpr h]
  · intro evs
    induction evs with
    | nil => intro r ss h; simp [tvh_mutex_timedlock] at h
    | cons e tail ih =>
        intro r ss h
        by_cases hb : e.1 = EBUSY
        · by_cases hd : clock0 + usec ≤ e.2
          · simp only [tvh_mutex_timedlock, if_pos hb, if_pos hd,
              Option.some.injEq, Prod.mk.injEq] at h
            intro s hs; rw [← h.2] at hs; simp at hs
          · simp only [tvh_mutex_timedlock, if_pos hb, if_neg hd,
              Option.map_eq_some'] at h
            obtain ⟨p, hp, hpq⟩ := h
            injection hpq with hr hss
            intro s hs
            rw [← hss] at hs
            rcases List.mem_cons.mp hs with h1 | h1
            · exact h1
            · exact ih p.1 p.2 (by rw [hp]) s h1
        · simp only [tvh_mutex_timedlock, if_neg hb, Option.some.injEq,
            Prod.mk.injEq] at h
          intro s hs; rw [← h.2] at hs; simp at hs

/-- Witness for C5 at concrete runs: immediate acquisition, a timeout at
the deadline, and a retry with one 10 ms sleep before acquisition. -/
theorem tvh_mutex_timedlock_spec_witness :
    tvh_mutex_timedlock 0 100 [(0, 0)] = some (0, []) ∧
    tvh_mutex_timedlock 0 100 [(16, 100)] = some (110, []) ∧
    tvh_mutex_timedlock 0 100 [(16, 50), (0, 60)] =
      (tvh_mutex_timedlock 0 100 [(0, 60)]).map
        (fun p => (p.1, 10000 :: p.2)) :=
  ⟨(tvh_mutex_timedlock_spec 0 100 0 []).1,
   (tvh_mutex_timedlock_spec 0 100 100 []).2.1 (by decide),
   (tvh_mutex_timedlock_spec 0 100 50 [(0, 60)]).2.2.1 (by decide)⟩

/-- Claim C10: after any run of contended attempts that are still before
the deadline, the first trylock result that is not EBUSY — success (0) or
any other error code — is returned to the caller unchanged, never turned
into ETIMEDOUT; with an empty run this says the very first trylock happens
before any deadline check, so it applies even when usec is zero or
negative. -/
theorem tvh_mutex_timedlock_passthrough (clock0 usec : Int)
    (pre : List (Nat × Int)) (e : Nat) (now : Int)
    (rest : List (Nat × Int)) (he : e ≠ EBUSY)
    (hpre : ∀ p ∈ pre, p.1 = EBUSY ∧ p.2 < clock0 + usec) :
    tvh_mutex_timedlock clock0 usec (pre ++ (e, now) :: rest) =
      some (e, List.replicate pre.length 10000) := by
  induction pre with
  | nil => simp [tvh_mutex_timedlock, he]
  | cons q tail ih =>
      obtain ⟨hq1, hq2⟩ := hpre q (List.mem_cons_self q tail)
      have htail : ∀ p ∈ tail, p.1 = EBUSY ∧ p.2 < clock0 + usec :=
        fun p hp => hpre p (List.mem_cons_of_mem q hp)
      calc tvh_mutex_timedlock clock0 usec ((q :: tail) ++ (e, now) :: rest)
          = (tvh_mutex_timedlock clock0 usec (tail ++ (e, now) :: rest)).map
              (fun p => (p.1, 10000 :: p.2)) := by
            obtain ⟨q1, q2⟩ := q
            simp only at hq1 hq2
            subst hq1
            simp [tvh_mutex_timedlock, not_le.mpr hq2]
        _ = some (e, List.replicate (q :: tail).length 10000) := by
            rw [ih htail]
            simp [List.replicate_succ]

/-- Witness for C10: a negative timeout with an immediately free mutex is
still acquired, and an EINVAL-style error after one contended attempt is
passed through unchanged. -/
theorem tvh_mutex_timedlock_passthrough_witness :
    tvh_mutex_timedlock 0 (-5) [(0, 0)] =
      some (0, List.replicate (List.length ([] : List (Nat × Int))) 10000) ∧
    tvh_mutex_timedlock 0 100 [(16, 50), (22, 60)] =
      some (22, List.replicate (List.length [((16 : Nat), (50 : Int))]) 10000) :=
  ⟨tvh_mutex_timedlock_passthrough 0 (-5) [] 0 0 [] (by decide)
      (by intro p hp; simp at hp),
   tvh_mutex_timedlock_passthrough 0 100 [(16, 50)] 22 60 [] (by decide)
      (by intro p hp; simp at hp; subst hp; exact ⟨rfl, by decide⟩)⟩

/-!
Monotonic sleep: tvh_usleep and tvh_usleep_abs (wrappers.c lines 293-325).
The oracle NanosleepOut is the outcome of clock_nanosleep on the monotonic
clock: its return value r (0 on success, a positive errno otherwise) and
the timespec it leaves behind (remSec seconds, remNsec nanoseconds of
unslept time; the kernel only ever reports nonnegative fields below one
billion nanoseconds).  The embedding returns the int64 result paired with
a flag telling whether the syscall was performed at all.
-/

/-- Modelled from the spec: the ERRNO_AGAIN macro lives in tvheadend.h,
which is not under src/; the spec describes its class as interruption and
resource-temporarily-unavailable errors, which on Linux are EINTR, EAGAIN
and EWOULDBLOCK. -/
def ERRNO_AGAIN (e : Nat) : Bool :=
  e == EAGAIN || e == EINTR || e == EWOULDBLOCK

structure NanosleepOut where
  r : Nat
  remSec : Int
  remNsec : Int
deriving DecidableEq

/-- Conversion of the remaining timespec back to microseconds, as computed
by both sleep functions: sec * 1000000 + (nsec + 500) / 1000. -/
def usleepVal (o : NanosleepOut) : Int :=
  o.remSec * 1000000 + (o.remNsec + 500) / 1000

/-- Embedding of tvh_usleep (relative monotonic sleep).  The Bool in the
result records whether clock_nanosleep was invoked. -/
def tvh_usleep (us : Int) (o : NanosleepOut) : Int × Bool :=
  if us ≤ 0 then (0, false)
  else if ERRNO_AGAIN o.r then (usleepVal o, true)
  else if o.r ≠ 0 then (-(o.r : Int), true)
  else (0, true)

/-- Embedding of tvh_usleep_abs (absolute monotonic sleep, TIMER_ABSTIME);
the body is identical to tvh_usleep, only the target of the syscall is an
absolute monotonic timestamp. -/
def tvh_usleep_abs (us : Int) (o : NanosleepOut) : Int × Bool :=
  if us ≤ 0 then (0, false)
  else if ERRNO_AGAIN o.r then (usleepVal o, true)
  else if o.r ≠ 0 then (-(o.r : Int), true)
  else (0, true)

/-- Claim C4: both sleep functions return 0 immediately, performing no
syscall, for a zero or negative target; when the sleep is interrupted
(retryable errno) they return the microsecond remainder reported by the
kernel, which is positive whenever at least half a microsecond was left;
on any other error they return the negated (hence negative) error code;
on interruption-free completion they return 0; and the absolute variant
behaves identically to the relative one on every oracle outcome. -/
theorem tvh_usleep_spec (us : Int) (o : NanosleepOut) :
    (us ≤ 0 → tvh_usleep us o = (0, false) ∧ tvh_usleep_abs us o = (0, false)) ∧
    (0 < us →
      (tvh_usleep us o).2 = true ∧
      (o.r = 0 → tvh_usleep us o = (0, true)) ∧
      (ERRNO_AGAIN o.r = true →
        (tvh_usleep us o).1 = usleepVal o ∧
        (0 ≤ o.remSec → 0 ≤ o.remNsec →
          (1 ≤ o.remSec ∨ 500 ≤ o.remNsec) → 0 < (tvh_usleep us o).1)) ∧
      (ERRNO_AGAIN o.r = false → o.r ≠ 0 →
        tvh_usleep us o = (-(o.r : Int), true) ∧ (tvh_usleep us o).1 < 0)) ∧
    tvh_usleep_abs us o = tvh_usleep us o := by
  refine ⟨?_, ?_, rfl⟩
  · intro h
    simp [tvh_usleep, tvh_usleep_abs, h]
  · intro h
    have hn : ¬ us ≤ 0 := not_le.mpr h
    refine ⟨?_, ?_, ?_, ?_⟩
    · simp only [tvh_usleep, if_neg hn]
      by_cases ha : ERRNO_AGAIN o.r
      · simp [ha]
      · by_cases hr : o.r = 0
        · rw [hr]; simp [ERRNO_AGAIN, EAGAIN, EINTR, EWOULDBLOCK]
        · simp [ha, hr]
    · intro hr
      simp [tvh_usleep, hn, hr, ERRNO_AGAIN, EAGAIN, EINTR, EWOULDBLOCK]
    · intro ha
      constructor
      · simp [tvh_usleep, hn, ha]
      · intro h1 h2 h3
        simp only [tvh_usleep, if_neg hn, ha, if_pos]
        unfold usleepVal
        rcases h3 with h3 | h3
        · have hdiv : 0 ≤ (o.remNsec + 500) / 1000 := by positivity
          nlinarith
        · have hdiv : 1 ≤ (o.remNsec + 500) / 1000 := by omega
          nlinarith
    · intro ha hr
      have : ¬ ERRNO_AGAIN o.r = true := by simp [ha]
      constructor
      · simp [tvh_usleep, hn, this, hr]
      · simp only [tvh_usleep, if_neg hn, this, if_neg, hr, if_pos]
        simp only [Bool.false_eq_true, if_false, if_pos hr]
        omega

/-- Witness for C4 at concrete oracle outcomes: negative duration, an
interruption with 0.7 ms left, a hard error EINVAL = 22, and a clean
completion. -/
theorem tvh_usleep_spec_witness :
    (tvh_usleep (-3) ⟨0, 0, 0⟩ = (0, false) ∧
      tvh_usleep_abs (-3) ⟨0, 0, 0⟩ = (0, false)) ∧
    ((tvh_usleep 5000 ⟨4, 0, 700000⟩).1 = usleepVal ⟨4, 0, 700000⟩ ∧
      0 < (tvh_usleep 5000 ⟨4, 0, 700000⟩).1) ∧
    (tvh_usleep 5000 ⟨22, 0, 0⟩ = (-22, true) ∧
      (tvh_usleep 5000 ⟨22, 0, 0⟩).1 < 0) ∧
    tvh_usleep 5000 ⟨0, 0, 0⟩ = (0, true) := by
  refine ⟨(tvh_usleep_spec (-3) ⟨0, 0, 0⟩).1 (by decide), ?_, ?_, ?_⟩
  · have h := ((tvh_usleep_spec 5000 ⟨4, 0, 700000⟩).2.1
      (by decide)).2.2.1 (by decide)
    exact ⟨h.1, h.2 (by decide) (by decide) (Or.inr (by decide))⟩
  · exact ((tvh_usleep_spec 5000 ⟨22, 0, 0⟩).2.1 (by decide)).2.2.2
      (by decide) (by decide)
  · exact ((tvh_usleep_spec 5000 ⟨0, 0, 0⟩).2.1 (by decide)).2.1 rfl

/-!
Context-carrying sort (wrappers.c lines 331-383).

The C qsort orders elements by a two-argument comparator returning a
negative, zero or positive int; it is modelled here as insertion sort on a
Lean list (same observable contract: a permutation of the input, sorted so
that the comparator never orders a later element strictly before an
earlier one).

tvh_qsort_r (lines 374-383) forwards base, count, size, comparator and the
caller context to a three-argument-comparator sort; every comparator
invocation receives the caller context.  The embedding instruments the
sort so that each comparator call also records the context value it was
handed, making the pass-through provable.

qsort_r (lines 336-355) is the thread-local fallback shim compiled when
the platform lacks a native qsort_r: it stores the comparator and context
in the thread-local qsort_r_data, then runs the plain two-argument qsort
through qsort_r_wrap, which reads qsort_r_data on every comparison.  The
thread-local cell is modelled as explicit state threaded through the call.
-/

/-- Ordering relation induced by a C-style three-argument comparator and a
fixed context: a may stay before b when compar a b ctx <= 0. -/
def cmpRel (compar : α → α → γ → Int) (x : γ) : α → α → Prop :=
  fun a b => compar a b x ≤ 0

instance (compar : α → α → γ → Int) (x : γ) : DecidableRel (cmpRel compar x) :=
  fun _ _ => Int.decLe _ _

/-- Insertion step of the sort, instrumented: the second component logs,
for every comparator invocation performed, the context value passed to
it. -/
def orderedInsertLog (compar : α → α → γ → Int) (x : γ) (a : α) :
    List α → List α × List γ
  | [] => ([a], [])
  | b :: l =>
      if compar a b x ≤ 0 then (a :: b :: l, [x])
      else
        let p := orderedInsertLog compar x a l
        (b :: p.1, x :: p.2)

/-- Instrumented insertion sort: sorted output plus the log of contexts
seen by the comparator across all invocations. -/
def insertionSortLog (compar : α → α → γ → Int) (x : γ) :
    List α → List α × List γ
  | [] => ([], [])
  | a :: l =>
      let p := insertionSortLog compar x l
      let q := orderedInsertLog compar x a p.1
      (q.1, p.2 ++ q.2)

/-- Embedding of tvh_qsort_r: the sorted array (the in-place result). -/
def tvh_qsort_r (base : List α) (compar : α → α → γ → Int) (arg : γ) :
    List α :=
  (insertionSortLog compar arg base).1

/-- Contexts received by the comparator across a tvh_qsort_r call. -/
def tvh_qsort_r_contexts (base : List α) (compar : α → α → γ → Int)
    (arg : γ) : List γ :=
  (insertionSortLog compar arg base).2

/-- Thread-local qsort_r_data of the fallback shim: the stored comparator
and context, none when unset (the cell starts zeroed). -/
structure QsortRData (α γ : Type) where
  cmp : Option (α → α → γ → Int)
  aux : Option γ

/-- Embedding of qsort_r_wrap: reads the thread-local cell on every
comparison (a null comparator would crash; the model returns 0 there, a
case never reached by qsort_r since it stores the pair first). -/
def qsort_r_wrap (d : QsortRData α γ) (a b : α) : Int :=
  match d.cmp, d.aux with
  | some c, some x => c a b x
  | _, _ => 0

/-- Model of the plain two-argument C qsort used by the shim. -/
def qsortC (cmp2 : α → α → Int) (l : List α) : List α :=
  List.insertionSort (fun a b => cmp2 a b ≤ 0) l

/-- Embedding of the qsort_r fallback shim: stores the comparator and the
context in the thread-local cell, then sorts through qsort_r_wrap.  The
returned state is the thread-local cell as the call leaves it. -/
def qsort_r (base : List α) (cmp : α → α → γ → Int) (aux : γ)
    (_d : QsortRData α γ) : List α × QsortRData α γ :=
  let d2 : QsortRData α γ := ⟨some cmp, some aux⟩
  (qsortC (fun a b => qsort_r_wrap d2 a b) base, d2)

/-- Instrumented insertion agrees with the Mathlib ordered insertion. -/
theorem orderedInsertLog_fst (compar : α → α → γ → Int) (x : γ) (a : α)
    (l : List α) :
    (orderedInsertLog compar x a l).1 =
      List.orderedInsert (cmpRel compar x) a l := by
  induction l with
  | nil => rfl
  | cons b l ih =>
      by_cases h : compar a b x ≤ 0
      · simp [orderedInsertLog, List.orderedInsert, h, cmpRel]
      · simp [orderedInsertLog, List.orderedInsert, h, cmpRel, ih]

/-- Instrumented sort agrees with the Mathlib insertion sort. -/
theorem insertionSortLog_fst (compar : α → α → γ → Int) (x : γ)
    (l : List α) :
    (insertionSortLog compar x l).1 =
      List.insertionSort (cmpRel compar x) l := by
  induction l with
  | nil => rfl
  | cons a l ih =>
      simp [insertionSortLog, List.insertionSort, ih, orderedInsertLog_fst]

/-- Every context logged by the instrumented insertion is the given one. -/
theorem orderedInsertLog_contexts (compar : α → α → γ → Int) (x : γ)
    (a : α) (l : List α) :
    ∀ c ∈ (orderedInsertLog compar x a l).2, c = x := by
  induction l with
  | nil => intro c hc; simp [orderedInsertLog] at hc
  | cons b l ih =>
      intro c hc
      by_cases h : compar a b x ≤ 0
      · simp [orderedInsertLog, h] at hc; exact hc
      · simp only [orderedInsertLog, if_neg h, List.mem_cons] at hc
        rcases hc with hc | hc
        · exact hc
        · exact ih c hc

/-- Every context logged across the whole sort is the given one. -/
theorem insertionSortLog_contexts (compar : α → α → γ → Int) (x : γ)
    (l : List α) :
    ∀ c ∈ (insertionSortLog compar x l).2, c = x := by
  induction l with
  | nil => intro c hc; simp [insertionSortLog] at hc
  | cons a l ih =>
      intro c hc
      simp only [insertionSortLog, List.mem_append] at hc
      rcases hc with hc | hc
      · exact ih c hc
      · exact orderedInsertLog_contexts compar x a _ c hc

/-- Claim C8: tvh_qsort_r sorts the array according to the comparator
(for any comparator that is total and transitive at the given context the
output is sorted, and it is always a permutation of the input), and the
context received by the comparator on every single invocation is exactly
the context supplied by the caller. -/
theorem tvh_qsort_r_spec (base : List α) (compar : α → α → γ → Int)
    (arg : γ)
    (htot : ∀ a b, compar a b arg ≤ 0 ∨ compar b a arg ≤ 0)
    (htrans : ∀ a b c, compar a b arg ≤ 0 → compar b c arg ≤ 0 →
      compar a c arg ≤ 0) :
    List.Sorted (cmpRel compar arg) (tvh_qsort_r base compar arg) ∧
    List.Perm (tvh_qsort_r base compar arg) base ∧
    ∀ c ∈ tvh_qsort_r_contexts base compar arg, c = arg := by
  letI : IsTotal α (cmpRel compar arg) := ⟨htot⟩
  letI : IsTrans α (cmpRel compar arg) := ⟨htrans⟩
  refine ⟨?_, ?_, ?_⟩
  · rw [tvh_qsort_r, insertionSortLog_fst]
    exact List.sorted_insertionSort _ _
  · rw [tvh_qsort_r, insertionSortLog_fst]
    exact List.perm_insertionSort _ _
  · exact insertionSortLog_contexts compar arg base

/-- Witness for C8: the spec test vector [5,3,1,4,2] with an ascending
comparator and the concrete context 42. -/
theorem tvh_qsort_r_spec_witness :
    List.Sorted (cmpRel (fun a b (_ : Nat) => a - b) 42)
      (tvh_qsort_r [5, 3, 1, 4, 2] (fun a b (_ : Nat) => a - b) 42) ∧
    List.Perm (tvh_qsort_r [5, 3, 1, 4, 2] (fun a b (_ : Nat) => a - b) 42)
      [5, 3, 1, 4, 2] ∧
    ∀ c ∈ tvh_qsort_r_contexts [5, 3, 1, 4, 2]
      (fun a b (_ : Nat) => a - b) 42, c = 42 :=
  tvh_qsort_r_spec [5, 3, 1, 4, 2] (fun a b (_ : Nat) => a - b) 42
    (fun a b => by
      show a - b ≤ 0 ∨ b - a ≤ 0
      omega)
    (fun a b c h1 h2 => by
      have h1 : a - b ≤ 0 := h1
      have h2 : b - c ≤ 0 := h2
      show a - c ≤ 0
      omega)

/-- Counterexample to claim C2: running the fallback shim from a cleared
thread-local cell leaves the cell holding the supplied context after the
call returns — the shim never restores or clears the thread-local
storage. -/
theorem qsort_r_tls_left_set :
    ((qsort_r [3, 1, 2] (fun a b (_ : Nat) => a - b) 7 ⟨none, none⟩).2.aux
        = some 7) ∧
    ¬ ((qsort_r [3, 1, 2] (fun a b (_ : Nat) => a - b) 7
        ⟨none, none⟩).2.aux = none) := by
  constructor
  · rfl
  · simp [qsort_r]

/-- Claim C2 (amended): the fallback shim stores the comparator and the
context in thread-local storage before invoking the underlying sort, the
wrapped comparator used during the sort reads exactly that stored pair, and
after the call returns the thread-local cell still holds the stored pair —
it is not restored or cleared (which is benign: the cell is thread-local
and only consulted while a sort on the same thread is running). -/
theorem qsort_r_tls_spec (base : List α) (cmp : α → α → γ → Int) (aux : γ)
    (d : QsortRData α γ) :
    qsort_r base cmp aux d =
      (qsortC (fun a b => cmp a b aux) base, ⟨some cmp, some aux⟩) := rfl

/-!
Thread naming: struct thread_state and tvhthread_create
(wrappers.c lines 125-179).  The name field is char name[17], zeroed by
calloc; tvhthread_create runs
  strncpy(ts->name, "tvh:", 4);
  strncpy(ts->name + 4, name, sizeof(ts->name) - 4);   // 13 bytes
  ts->name[sizeof(ts->name) - 1] = 0;                  // byte 16
Bytes are modelled as Nat, the buffer as a 17-element list, and the caller
name as its C-string content (the bytes before the terminator).
-/

/-- Bytes written by strncpy(dst, src, n): source bytes up to the first
zero byte or up to n, the rest of the n bytes zero-filled. -/
def strncpyBytes : List Nat → Nat → List Nat
  | _, 0 => []
  | [], n + 1 => List.replicate (n + 1) 0
  | b :: bs, n + 1 =>
      if b = 0 then List.replicate (n + 1) 0 else b :: strncpyBytes bs n

/-- Overwrites buf starting at off with the bytes xs (in-bounds store). -/
def writeAt (buf : List Nat) (off : Nat) (xs : List Nat) : List Nat :=
  buf.take off ++ xs ++ buf.drop (off + xs.length)

/-- The fixed 4-character tag "tvh:" as bytes. -/
def tvhTag : List Nat := [116, 118, 104, 58]

/-- Embedding of the name field of struct thread_state as filled by
tvhthread_create for a given caller name. -/
def thread_state_name (name : List Nat) : List Nat :=
  (writeAt (writeAt (List.replicate 17 0) 0 (strncpyBytes tvhTag 4)) 4
    (strncpyBytes name 13)).set 16 0

/-- The visible label: the bytes of the name field before the first zero
byte, which is what the platform thread-naming facility displays. -/
def threadLabel (name : List Nat) : List Nat :=
  (thread_state_name name).takeWhile (fun b => b != 0)

theorem strncpyBytes_length (s : List Nat) (n : Nat) :
    (strncpyBytes s n).length = n := by
  induction s generalizing n with
  | nil => cases n <;> simp [strncpyBytes]
  | cons b bs ih =>
      cases n with
      | zero => rfl
      | succ m =>
          by_cases h : b = 0 <;> simp [strncpyBytes, h, ih]

theorem strncpyBytes_nullfree (s : List Nat) (h : ∀ b ∈ s, b ≠ 0)
    (n : Nat) :
    strncpyBytes s n = s.take n ++ List.replicate (n - s.length) 0 := by
  induction s generalizing n with
  | nil => cases n <;> simp [strncpyBytes]
  | cons b bs ih =>
      cases n with
      | zero => simp [strncpyBytes]
      | succ m =>
          have hb : b ≠ 0 := h b (List.mem_cons_self b bs)
          have ihs := ih (fun x hx => h x (List.mem_cons_of_mem b hx)) m
          simp [strncpyBytes, hb, ihs, List.take_succ_cons, Nat.succ_sub_succ]

/-- Structure of the filled name buffer for a zero-free caller name: the
tag, then at most 12 bytes of the name, then zero fill (at least one zero
byte). -/
theorem thread_state_name_shape (name : List Nat)
    (h : ∀ b ∈ name, b ≠ 0) :
    thread_state_name name =
      tvhTag ++ name.take 12 ++
        List.replicate (13 - min 12 name.length) 0 := by
  have hinner : writeAt (List.replicate 17 0) 0 (strncpyBytes tvhTag 4) =
      tvhTag ++ List.replicate 13 0 := by decide
  have hlen : (strncpyBytes name 13).length = 13 := strncpyBytes_length _ _
  have houter : writeAt (tvhTag ++ List.replicate 13 0) 4
      (strncpyBytes name 13) = tvhTag ++ strncpyBytes name 13 := by
    unfold writeAt
    rw [hlen, List.take_left' (by rfl), List.drop_eq_nil_of_le (by simp [tvhTag])]
    simp
  have hset : (tvhTag ++ strncpyBytes name 13).set 16 0 =
      tvhTag ++ (strncpyBytes name 13).take 12 ++ [0] := by
    rw [List.set_eq_take_cons_drop 0 (by simp [hlen, tvhTag])]
    have h16 : (16 : Nat) = tvhTag.length + 12 := by rfl
    have h17 : (17 : Nat) = tvhTag.length + 13 := by rfl
    rw [h16, List.take_append, List.drop_eq_nil_of_le (by simp [hlen, tvhTag])]
  rw [thread_state_name, hinner, houter, hset,
    strncpyBytes_nullfree name h 13]
  rcases Nat.le_total name.length 12 with hle | hge
  · have h1 : name.take 13 = name := List.take_of_length_le (by omega)
    have h2 : name.take 12 = name := List.take_of_length_le hle
    have h3 : min 12 name.length = name.length := by omega
    rw [h1, h2, h3]
    have h4 : (name ++ List.replicate (13 - name.length) 0).take 12 =
        name ++ List.replicate (12 - name.length) 0 := by
      rw [List.take_append_eq_append_take, List.take_of_length_le hle,
        List.take_replicate]
      congr 2
      omega
    rw [h4]
    have h5 : (13 - name.length) = (12 - name.length) + 1 := by omega
    rw [h5, List.replicate_succ']
    simp
  · have h3 : min 12 name.length = 12 := by omega
    have h4 : (name.take 13 ++ List.replicate (13 - name.length) 0).take 12 =
        name.take 12 := by
      rw [List.take_append_eq_append_take, List.take_take]
      have : min 12 13 = 12 := by decide
      rw [this]
      have : 12 - (name.take 13).length = 0 := by
        simp [List.length_take]
        omega
      rw [this]
      simp
    rw [h4, h3]
    simp

/-- Claim C3 (amended): the name buffer built by tvhthread_create is 17
bytes: the fixed 4-character tag "tvh:", then the caller name truncated to
at most 12 visible characters (not 16), and it is always null-terminated —
byte 16 is forced to zero — even when the name is truncated. -/
theorem tvhthread_create_name (name : List Nat) (h : ∀ b ∈ name, b ≠ 0) :
    (thread_state_name name).length = 17 ∧
    (thread_state_name name).getD 16 0 = 0 ∧
    threadLabel name = tvhTag ++ name.take 12 := by
  have hs := thread_state_name_shape name h
  refine ⟨?_, ?_, ?_⟩
  · rw [hs]
    simp only [List.length_append, List.length_take, List.length_replicate,
      tvhTag, List.length_cons, List.length_nil]
    omega
  · rw [hs, List.append_assoc,
      List.getD_append_right _ _ _ _ (by simp [tvhTag]),
      List.getD_append_right _ _ _ _
        (by simp [List.length_take, tvhTag]),
      List.getD_eq_getElem?_getD, List.getElem?_getD_replicate_default_eq]
  · rw [threadLabel, hs, List.append_assoc,
      List.takeWhile_append_of_pos (by decide),
      List.takeWhile_append_of_pos (fun a ha => by
        have : a ∈ name := List.take_subset 12 name ha
        simp [h a this])]
    have hk : 13 - min 12 name.length = (12 - min 12 name.length) + 1 := by
      omega
    rw [hk, List.replicate_succ]
    simp

/-- Witness for C3 (amended) at the short name "abc": preserved exactly
after the tag, null-terminated, 17-byte buffer. -/
theorem tvhthread_create_name_witness :
    (thread_state_name [97, 98, 99]).length = 17 ∧
    (thread_state_name [97, 98, 99]).getD 16 0 = 0 ∧
    threadLabel [97, 98, 99] = tvhTag ++ [97, 98, 99].take 12 :=
  tvhthread_create_name [97, 98, 99] (by decide)

/-- Counterexample to claim C3: a 16-character caller name
("abcdefghijklmnop") does not fit after the tag — only its first 12
characters appear in the label, so the buffer does not accommodate up to
16 visible characters of the caller name in addition to the tag. -/
theorem thread_name_not_sixteen :
    threadLabel [97, 98, 99, 100, 101, 102, 103, 104, 105, 106, 107, 108,
        109, 110, 111, 112] =
      tvhTag ++ [97, 98, 99, 100, 101, 102, 103, 104, 105, 106, 107, 108] ∧
    threadLabel [97, 98, 99, 100, 101, 102, 103, 104, 105, 106, 107, 108,
        109, 110, 111, 112] ≠
      tvhTag ++ [97, 98, 99, 100, 101, 102, 103, 104, 105, 106, 107, 108,
        109, 110, 111, 112] := by
  constructor <;> decide
